import Mathlib

/-!
Formal model of the paper-bear event pipeline (scrape → normalize → dedupe).

The definitions below are shallow embeddings of the TypeScript sources:
* `src/lib/utils/classifier.ts`   — `classifyEventType`, `parsePrice`
* `src/lib/utils/scraper-core.ts` — `EthicalScraper.runScraper`, `generateEventHash`
* `src/lib/utils/date-parser.ts`  — `parseVancouverDate`, `inferYear`, `DATE_FORMATS`
* `scripts/scrape.ts` / `src/pages/api/scrape.ts` — `normalizeEvents` and the venue loop

Modelling conventions:
* JavaScript `Date` values are epoch milliseconds (`Int`).  The runtime's local
  timezone is modelled as UTC (the repository's tests drive the parser with
  `Z`-suffixed reference instants), so `getFullYear`, `setDate`, … read the UTC
  civil representation of the instant.
* JavaScript strings are Lean `String`s; the character-level helpers work on
  `List Char`.  `toLowerCase` is modelled on the ASCII range, and `\s`/`trim`
  as the ASCII whitespace characters plus NBSP.
* Floating point is modelled by exact arithmetic: the price regex captures an
  integer dollar part plus an optional two-digit fraction, and
  `Math.round(parseFloat(x) * 100)` equals `dollars*100 + frac` exactly for all
  magnitudes handled by the pipeline.
* `fetch`/Playwright effects are replaced by per-attempt outcome oracles, and
  wall-clock durations by `0`; neither affects any property stated here.
-/

/-! ## Character and string helpers (ASCII model of the JS string primitives) -/

/-- ASCII model of the character class `\s` used by `trim`, `\s+`, `\s*`. -/
def isWsChar (c : Char) : Bool :=
  c = ' ' || c = '\t' || c = '\n' || c = '\r' || c.toNat = 11 || c.toNat = 12 || c.toNat = 160

/-- ASCII model of `String.prototype.toLowerCase` on a single character. -/
def toLowerChar (c : Char) : Char :=
  if 'A' ≤ c ∧ c ≤ 'Z' then Char.ofNat (c.toNat + 32) else c

/-- Lower-case every character (JS `toLowerCase`, ASCII range). -/
def lowerStr (l : List Char) : List Char := l.map toLowerChar

/-- JS `String.prototype.trim`: drop leading and trailing whitespace. -/
def trimBoth (l : List Char) : List Char :=
  ((l.dropWhile isWsChar).reverse.dropWhile isWsChar).reverse

/-- Does `hay` start with `needle` (character-exact)? -/
def leadsWith : List Char → List Char → Bool
  | [], _ => true
  | _ :: _, [] => false
  | a :: as, b :: bs => a = b && leadsWith as bs

/-- JS `String.prototype.includes`: `needle` occurs as a contiguous substring of `hay`. -/
def containsSub : List Char → List Char → Bool
  | [], needle => needle.isEmpty
  | h :: t, needle => leadsWith needle (h :: t) || containsSub t needle

/-- Case-insensitively consume the (already lower-case) pattern `pat` from the
front of `s`, returning the rest of `s` on success. -/
def dropCI : List Char → List Char → Option (List Char)
  | [], s => some s
  | _ :: _, [] => none
  | p :: ps, c :: cs => if toLowerChar c = p then dropCI ps cs else none

/-- Greedily accumulate a run of decimal digits (the value so far in `acc`). -/
def digitsRun : List Char → Nat → Nat × List Char
  | [], acc => (acc, [])
  | c :: rest, acc =>
    if c.isDigit then digitsRun rest (acc * 10 + (c.toNat - 48)) else (acc, c :: rest)

/-- Regex `\d+` at the current position: `none` unless a digit is first. -/
def takeAllDigits : List Char → Option (Nat × List Char)
  | [] => none
  | c :: rest => if c.isDigit then some (digitsRun rest (c.toNat - 48)) else none

/-! ## Classifier (`src/lib/utils/classifier.ts`) -/

/-- Event categories of `db/config.ts` (`EventType`). -/
inductive EventType where
  | music | comedy | theatre | screening | other
  deriving DecidableEq, Repr

/-- Keyword list for `music` in `KEYWORDS`. -/
def musicKeywords : List String :=
  ["concert", "live music", "band", "dj", "album", "tour", "singer",
   "jazz", "rock", "punk", "metal", "hip hop", "rap", "electronic",
   "folk", "country", "indie", "funk", "soul", "r&b", "reggae",
   "orchestra", "symphony", "acoustic", "vinyl", "record"]

/-- Keyword list for `comedy` in `KEYWORDS`. -/
def comedyKeywords : List String :=
  ["comedy", "stand-up", "standup", "comedian", "improv", "sketch",
   "laugh", "funny", "comic", "open mic comedy", "roast"]

/-- Keyword list for `theatre` in `KEYWORDS`. -/
def theatreKeywords : List String :=
  ["theatre", "theater", "play", "musical", "drama", "stage",
   "performance", "act", "production", "playwright", "ballet",
   "dance", "opera", "burlesque", "cabaret", "drag"]

/-- Keyword list for `screening` in `KEYWORDS`. -/
def screeningKeywords : List String :=
  ["film", "movie", "screening", "cinema", "documentary", "short",
   "premiere", "watch party", "matinee"]

/-- Number of keywords of `kws` occurring as substrings of `t`
(each keyword contributes at most once, exactly as the source's
`if (normalized.includes(keyword)) scores[type]++`). -/
def scoreFor (kws : List String) (t : List Char) : Nat :=
  kws.countP (fun k => containsSub t k.data)

/-- The selection loop of `classifyEventType`: fold over the `(type, score)`
entries keeping the first entry whose score strictly exceeds the best so far
(initial best: `other` with score 0). -/
def bestOf (entries : List (EventType × Nat)) : EventType × Nat :=
  entries.foldl (fun best p => if p.2 > best.2 then p else best) (EventType.other, 0)

/-- Embedding of `classifyEventType`: lower-case the title, score each fixed
keyword list by substring hits, and take the first strictly-highest score in
declaration order (`music`, `comedy`, `theatre`, `screening`, `other`). -/
def classifyEventType (title : String) : EventType :=
  let n := lowerStr title.data
  (bestOf
    [(EventType.music, scoreFor musicKeywords n),
     (EventType.comedy, scoreFor comedyKeywords n),
     (EventType.theatre, scoreFor theatreKeywords n),
     (EventType.screening, scoreFor screeningKeywords n),
     (EventType.other, 0)]).1

/-- Result type of `parsePrice` (`price` is in integer cents). -/
structure PriceResult where
  price : Option Nat
  isFree : Bool
  deriving DecidableEq, Repr

/-- The free-indicator test of `parsePrice`: the normalized string contains
`"free"`, or equals `"pwyc"`, `"pay what you can"`, `"$0"`, or `"0"`. -/
def freeIndicator (n : List Char) : Bool :=
  containsSub n "free".data || n == "pwyc".data || n == "pay what you can".data ||
    n == "$0".data || n == "0".data

/-- Optional two-digit fraction: regex `(?:\.\d{2})?` right after the integer part. -/
def fracOf : List Char → Option Nat
  | '.' :: a :: b :: _ =>
    if a.isDigit ∧ b.isDigit then some ((a.toNat - 48) * 10 + (b.toNat - 48)) else none
  | _ => none

/-- Leftmost match of the regex `\$?(\d+(?:\.\d{2})?)`, returned as
(integer dollars, optional two-digit fraction). -/
def firstNum : List Char → Option (Nat × Option Nat)
  | [] => none
  | c :: rest =>
    if c = '$' then
      match takeAllDigits rest with
      | some (v, r2) => some (v, fracOf r2)
      | none => firstNum rest
    else if c.isDigit then
      match digitsRun rest (c.toNat - 48) with
      | (v, r2) => some (v, fracOf r2)
    else firstNum rest

/-- The normalization `raw.toLowerCase().trim()` inside `parsePrice`. -/
def normalizePrice (s : String) : List Char := trimBoth (lowerStr s.data)

/-- Embedding of `parsePrice` (input `none` models JS `undefined`; the empty
string is falsy so it takes the `!raw` branch too). -/
def parsePrice (raw : Option String) : PriceResult :=
  match raw with
  | none => ⟨none, false⟩
  | some s =>
    if s = "" then ⟨none, false⟩
    else
      let n := normalizePrice s
      if freeIndicator n then ⟨some 0, true⟩
      else
        match firstNum n with
        | some (v, fr) => ⟨some (v * 100 + fr.getD 0), false⟩
        | none => ⟨none, false⟩

/-! ## Proleptic Gregorian calendar arithmetic (model of the JS `Date` fields) -/

/-- Days since 1970-01-01 of the civil date `(y, m, d)` (Gregorian). -/
def daysFromCivil (y : Int) (m d : Nat) : Int :=
  let y2 : Int := if m ≤ 2 then y - 1 else y
  let era : Int := y2.fdiv 400
  let yoe : Int := y2 - era * 400
  let mp : Int := if m ≤ 2 then (m : Int) + 9 else (m : Int) - 3
  let doy : Int := (153 * mp + 2).fdiv 5 + (d : Int) - 1
  let doe : Int := yoe * 365 + yoe.fdiv 4 - yoe.fdiv 100 + doy
  era * 146097 + doe - 719468

/-- Civil date `(y, m, d)` of a day count since 1970-01-01 (Gregorian). -/
def civilFromDays (z : Int) : Int × Nat × Nat :=
  let z2 := z + 719468
  let era := z2.fdiv 146097
  let doe := (z2 - era * 146097).toNat
  let yoe := (doe - doe / 1460 + doe / 36524 - doe / 146096) / 365
  let y := (yoe : Int) + era * 400
  let doy := doe - (365 * yoe + yoe / 4 - yoe / 100)
  let mp := (5 * doy + 2) / 153
  let d := doy - (153 * mp + 2) / 5 + 1
  let m := if mp < 10 then mp + 3 else mp - 9
  (if m ≤ 2 then y + 1 else y, m, d)

/-- Gregorian leap-year test. -/
def isLeap (y : Int) : Bool :=
  y.emod 4 = 0 && (y.emod 100 ≠ 0 || y.emod 400 = 0)

/-- Number of days in month `m` (1-12) of year `y`. -/
def daysInMonth (y : Int) (m : Nat) : Nat :=
  if m = 2 then (if isLeap y then 29 else 28)
  else if m = 4 ∨ m = 6 ∨ m = 9 ∨ m = 11 then 30
  else 31

/-- UTC civil date `(year, month, day)` of an epoch-milliseconds instant
(JS `getUTCFullYear`/`getUTCMonth`/`getUTCDate`; equal to the local fields
under the UTC-runtime model). -/
def utcCivilDayOfMs (t : Int) : Int × Nat × Nat := civilFromDays (t.fdiv 86400000)

/-- Zero-padded two-digit decimal. -/
def pad2 (n : Nat) : String := if n < 10 then "0" ++ toString n else toString n

/-- Zero-padded four-digit decimal. -/
def pad4 (n : Nat) : String :=
  if n < 10 then "000" ++ toString n
  else if n < 100 then "00" ++ toString n
  else if n < 1000 then "0" ++ toString n
  else toString n

/-- The `YYYY-MM-DD` part of `Date.prototype.toISOString` (the UTC calendar
day of the instant; years are modelled in the range 0-9999, which covers
every date this pipeline produces). -/
def isoDayOfMs (t : Int) : String :=
  match utcCivilDayOfMs t with
  | (y, m, d) => pad4 y.toNat ++ "-" ++ pad2 m ++ "-" ++ pad2 d

/-! ## MD5 (model of Node's `createHash('md5')`) -/

/-- UTF-8 byte encoding of one Unicode code point. -/
def utf8Char (c : Char) : List Nat :=
  let n := c.toNat
  if n < 128 then [n]
  else if n < 2048 then [192 + n / 64, 128 + n % 64]
  else if n < 65536 then [224 + n / 4096, 128 + (n / 64) % 64, 128 + n % 64]
  else [240 + n / 262144, 128 + (n / 4096) % 64, 128 + (n / 64) % 64, 128 + n % 64]

/-- UTF-8 bytes of a string (Node `Buffer.from(input, 'utf8')`). -/
def utf8Bytes (s : String) : List Nat :=
  s.data.foldr (fun c acc => utf8Char c ++ acc) []

/-- Truncate to 32 bits. -/
def u32 (n : Nat) : Nat := n % 4294967296

/-- Rotate a 32-bit word left by `n` bits. -/
def rotl32 (x n : Nat) : Nat := u32 (x * 2 ^ n) + x / 2 ^ (32 - n)

/-- Bitwise complement of a 32-bit word. -/
def not32 (x : Nat) : Nat := 4294967295 - x

/-- The sine-derived MD5 round constants `K[0..63]`. -/
def md5K : List Nat :=
  [3614090360, 3905402710, 606105819, 3250441966, 4118548399, 1200080426, 2821735955, 4249261313,
   1770035416, 2336552879, 4294925233, 2304563134, 1804603682, 4254626195, 2792965006, 1236535329,
   4129170786, 3225465664, 643717713, 3921069994, 3593408605, 38016083, 3634488961, 3889429448,
   568446438, 3275163606, 4107603335, 1163531501, 2850285829, 4243563512, 1735328473, 2368359562,
   4294588738, 2272392833, 1839030562, 4259657740, 2763975236, 1272893353, 4139469664, 3200236656,
   681279174, 3936430074, 3572445317, 76029189, 3654602809, 3873151461, 530742520, 3299628645,
   4096336452, 1126891415, 2878612391, 4237533241, 1700485571, 2399980690, 4293915773, 2240044497,
   1873313359, 4264355552, 2734768916, 1309151649, 4149444226, 3174756917, 718787259, 3951481745]

/-- The per-round left-rotation amounts `s[0..63]`. -/
def md5S : List Nat :=
  [7, 12, 17, 22, 7, 12, 17, 22, 7, 12, 17, 22, 7, 12, 17, 22,
   5, 9, 14, 20, 5, 9, 14, 20, 5, 9, 14, 20, 5, 9, 14, 20,
   4, 11, 16, 23, 4, 11, 16, 23, 4, 11, 16, 23, 4, 11, 16, 23,
   6, 10, 15, 21, 6, 10, 15, 21, 6, 10, 15, 21, 6, 10, 15, 21]

/-- Running MD5 state. -/
structure Md5State where
  a : Nat
  b : Nat
  c : Nat
  d : Nat
  deriving DecidableEq, Repr

/-- Little-endian 32-bit word `j` (0-15) of a 64-byte block. -/
def wordAt (block : List Nat) (j : Nat) : Nat :=
  block.getD (4 * j) 0 + 256 * block.getD (4 * j + 1) 0 +
    65536 * block.getD (4 * j + 2) 0 + 16777216 * block.getD (4 * j + 3) 0

/-- One of the 64 MD5 rounds on a block with message words `M`. -/
def md5Round (M : Nat → Nat) (st : Md5State) (i : Nat) : Md5State :=
  let f :=
    if i < 16 then (st.b &&& st.c) ||| (not32 st.b &&& st.d)
    else if i < 32 then (st.d &&& st.b) ||| (not32 st.d &&& st.c)
    else if i < 48 then st.b ^^^ st.c ^^^ st.d
    else st.c ^^^ (st.b ||| not32 st.d)
  let g :=
    if i < 16 then i
    else if i < 32 then (5 * i + 1) % 16
    else if i < 48 then (3 * i + 5) % 16
    else (7 * i) % 16
  let tmp := u32 (st.a + f + md5K.getD i 0 + M g)
  ⟨st.d, u32 (st.b + rotl32 tmp (md5S.getD i 0)), st.b, st.c⟩

/-- Process one 64-byte block. -/
def md5Block (st : Md5State) (block : List Nat) : Md5State :=
  let M := wordAt block
  let r := (List.range 64).foldl (md5Round M) st
  ⟨u32 (st.a + r.a), u32 (st.b + r.b), u32 (st.c + r.c), u32 (st.d + r.d)⟩

/-- Fueled block loop (structural recursion; each step consumes 64 bytes, so
`length` fuel always suffices). -/
def md5ProcessAux : Nat → Md5State → List Nat → Md5State
  | 0, st, _ => st
  | _ + 1, st, [] => st
  | fuel + 1, st, b :: rest => md5ProcessAux fuel (md5Block st ((b :: rest).take 64)) (rest.drop 63)

/-- Process a padded message 64 bytes at a time. -/
def md5Process (st : Md5State) (msg : List Nat) : Md5State :=
  md5ProcessAux msg.length st msg

/-- The sixteen lower-case hex digit characters. -/
def hexDigits : List Char := "0123456789abcdef".data

/-- Two lower-case hex digits of a byte. -/
def hexByte (b : Nat) : List Char :=
  [hexDigits.getD (b / 16) '0', hexDigits.getD (b % 16) '0']

/-- Little-endian bytes of a 32-bit word. -/
def wordBytes (w : Nat) : List Nat :=
  [w % 256, (w / 256) % 256, (w / 65536) % 256, (w / 16777216) % 256]

/-- MD5 digest of a byte sequence, as a lower-case hex string
(Node `createHash('md5').update(input).digest('hex')`). -/
def md5Hex (msg : List Nat) : String :=
  let L := msg.length
  let zeros := (120 - (L + 1) % 64) % 64
  let bitLen := 8 * L
  let lenBytes := [bitLen % 256, (bitLen / 256) % 256, (bitLen / 65536) % 256,
    (bitLen / 16777216) % 256, (bitLen / 4294967296) % 256, (bitLen / 1099511627776) % 256,
    (bitLen / 281474976710656) % 256, (bitLen / 72057594037927936) % 256]
  let padded := msg ++ 128 :: List.replicate zeros 0 ++ lenBytes
  let st := md5Process ⟨1732584193, 4023233417, 2562383102, 271733878⟩ padded
  String.mk (((wordBytes st.a ++ wordBytes st.b ++ wordBytes st.c ++ wordBytes st.d).map hexByte).flatten)

/-! ## Deduplication hash (`generateEventHash` in `scraper-core.ts`) -/

/-- Title normalization inside `generateEventHash`:
`title.toLowerCase().trim().replace(/\s+/g, ' ')`. -/
def collapseWsAux : Bool → List Char → List Char
  | _, [] => []
  | prevWs, c :: rest =>
    if isWsChar c then
      if prevWs then collapseWsAux true rest else ' ' :: collapseWsAux true rest
    else c :: collapseWsAux false rest

/-- Regex replace `/\s+/g, ' '`: collapse every whitespace run to one space. -/
def collapseWs (l : List Char) : List Char := collapseWsAux false l

/-- The normalized title used by `generateEventHash`. -/
def normalizeTitle (title : String) : String :=
  String.mk (collapseWs (trimBoth (lowerStr title.data)))

/-- Embedding of `generateEventHash(venueId, date, title)`: MD5 hex digest of
`venueId + '|' + <UTC civil day of date> + '|' + <normalized title>`. -/
def generateEventHash (venueId : String) (date : Int) (title : String) : String :=
  md5Hex (utf8Bytes (venueId ++ "|" ++ isoDayOfMs date ++ "|" ++ normalizeTitle title))

/-! ## Date-string normalization (the `.replace` chain in `parseVancouverDate`) -/

/-- Regex replace `/,\s*/g, ', '` (state: skipping whitespace after a comma). -/
def commaSpaceAux : Bool → List Char → List Char
  | _, [] => []
  | skip, c :: rest =>
    if skip && isWsChar c then commaSpaceAux true rest
    else if c = ',' then ',' :: ' ' :: commaSpaceAux true rest
    else c :: commaSpaceAux false rest

/-- Regex replace `/,\s*/g, ', '`: normalize comma spacing. -/
def commaSpace (l : List Char) : List Char := commaSpaceAux false l

/-- Is `(c, t)` a two-character ordinal suffix (`st`, `nd`, `rd`, `th`),
case-insensitively? -/
def isOrdSuffix (c t : Char) : Bool :=
  let a := toLowerChar c
  let b := toLowerChar t
  (a = 's' && b = 't') || (a = 'n' && b = 'd') || (a = 'r' && b = 'd') || (a = 't' && b = 'h')

/-- Regex replace `/(\d+)(st|nd|rd|th)/gi, '$1'` (state: whether the previous
character was a digit, i.e. whether an ordinal suffix may start here). -/
def ordinalAux : Bool → List Char → List Char
  | _, [] => []
  | afterDigit, c :: rest =>
    if c.isDigit then c :: ordinalAux true rest
    else if afterDigit then
      match rest with
      | t :: rest2 =>
        if isOrdSuffix c t then ordinalAux false rest2
        else c :: ordinalAux false (t :: rest2)
      | [] => [c]
    else c :: ordinalAux false rest

/-- Regex replace `/(\d+)(st|nd|rd|th)/gi, '$1'`: strip ordinal suffixes. -/
def stripOrdinals (l : List Char) : List Char := ordinalAux false l

/-- Regex replace `/\./g, ''`: remove every period. -/
def removeDots (l : List Char) : List Char := l.filter (fun c => c ≠ '.')

/-- Regex replace `/(\d)(am|pm)/gi, '$1 $2'`: insert a space between a digit
and a meridiem marker, scanning left to right past each match. -/
def meridiemSpace : List Char → List Char
  | [] => []
  | [c] => [c]
  | [c, a] => [c, a]
  | c :: a :: m :: rest2 =>
    if c.isDigit && (toLowerChar a = 'a' || toLowerChar a = 'p') && toLowerChar m = 'm' then
      c :: ' ' :: a :: m :: meridiemSpace rest2
    else c :: meridiemSpace (a :: m :: rest2)

/-- Drop leading whitespace (regex `\s*`). -/
def dropWs (l : List Char) : List Char := l.dropWhile isWsChar

/-- Optional separator group `(?:@|at|:)?` (the `at` alternative is
case-insensitive under the regex's `i` flag). -/
def matchSep : List Char → List Char
  | '@' :: r => r
  | ':' :: r => r
  | a :: t :: r => if toLowerChar a = 'a' && toLowerChar t = 't' then r else a :: t :: r
  | l => l

/-- Match the regex `doors?\s*(?:@|at|:)?\s*` at the head of the list,
returning the rest after the match. -/
def matchDoors (l : List Char) : Option (List Char) :=
  match dropCI "door".data l with
  | none => none
  | some r1 =>
    let r2 := match r1 with
      | c :: cs => if toLowerChar c = 's' then cs else r1
      | [] => r1
    some (dropWs (matchSep (dropWs r2)))

/-- Match the regex `show\s*(?:@|at|:)?\s*` at the head of the list. -/
def matchShow (l : List Char) : Option (List Char) :=
  match dropCI "show".data l with
  | none => none
  | some r1 => some (dropWs (matchSep (dropWs r1)))

/-- Fueled left-to-right global regex replace with empty replacement: at every
position try `m`; on a match continue after it, otherwise keep the character.
Every match of the patterns used here consumes at least four characters, so
`length + 1` fuel always suffices. -/
def stripAllAux (m : List Char → Option (List Char)) : Nat → List Char → List Char
  | 0, l => l
  | _ + 1, [] => []
  | fuel + 1, c :: rest =>
    match m (c :: rest) with
    | some r2 => stripAllAux m fuel r2
    | none => c :: stripAllAux m fuel rest

/-- Global regex replace of pattern `m` by the empty string. -/
def stripAll (m : List Char → Option (List Char)) (l : List Char) : List Char :=
  stripAllAux m (l.length + 1) l

/-- The whole normalization chain of `parseVancouverDate`, in source order:
trim; collapse `\s+`; normalize `,\s*`; strip ordinals; remove dots;
space digit-meridiem; remove `doors?…` matches; remove `show…` matches; trim. -/
def normalizeDateString (l : List Char) : List Char :=
  trimBoth (stripAll matchShow (stripAll matchDoors
    (meridiemSpace (removeDots (stripOrdinals (commaSpace (collapseWs (trimBoth l))))))))

/-! ## date-fns `parse` model for the formats in `DATE_FORMATS` -/

/-- Format tokens appearing in `DATE_FORMATS` (date-fns notation). -/
inductive FTok where
  | lit (c : Char)
  | weekday
  | monthWide
  | monthAbbr
  | monthNum
  | dayNum
  | year4
  | hour12
  | hour24
  | minute2
  | meridiem
  deriving DecidableEq, Repr

/-- Tokenize a date-fns format string (longest letter-runs first). -/
def tokenizeFmt : List Char → List FTok
  | [] => []
  | 'E' :: 'E' :: 'E' :: 'E' :: r => .weekday :: tokenizeFmt r
  | 'M' :: 'M' :: 'M' :: 'M' :: r => .monthWide :: tokenizeFmt r
  | 'M' :: 'M' :: 'M' :: r => .monthAbbr :: tokenizeFmt r
  | 'M' :: 'M' :: r => .monthNum :: tokenizeFmt r
  | 'y' :: 'y' :: 'y' :: 'y' :: r => .year4 :: tokenizeFmt r
  | 'H' :: 'H' :: r => .hour24 :: tokenizeFmt r
  | 'm' :: 'm' :: r => .minute2 :: tokenizeFmt r
  | 'd' :: 'd' :: r => .dayNum :: tokenizeFmt r
  | 'd' :: r => .dayNum :: tokenizeFmt r
  | 'h' :: r => .hour12 :: tokenizeFmt r
  | 'a' :: r => .meridiem :: tokenizeFmt r
  | c :: r => .lit c :: tokenizeFmt r

/-- en-US full weekday names (date-fns `day`, width `wide`). -/
def weekdayNames : List String :=
  ["sunday", "monday", "tuesday", "wednesday", "thursday", "friday", "saturday"]

/-- en-US full month names (date-fns `month`, width `wide`). -/
def monthWideNames : List String :=
  ["january", "february", "march", "april", "may", "june",
   "july", "august", "september", "october", "november", "december"]

/-- en-US abbreviated month names (date-fns `month`, width `abbreviated`). -/
def monthAbbrNames : List String :=
  ["jan", "feb", "mar", "apr", "may", "jun", "jul", "aug", "sep", "oct", "nov", "dec"]

/-- Match the first name of `names` that is a case-insensitive prefix of `s`,
returning its index and the rest of `s`. -/
def matchNameIdx (names : List String) (s : List Char) : Option (Nat × List Char) :=
  (names.enum.findSome? fun p =>
    (dropCI p.2.data s).map fun r => (p.1, r))

/-- Greedily take 1 to `max` digits (regex `\d{1,max}`), returning the value. -/
def takeNum (max : Nat) (s : List Char) : Option (Nat × List Char) :=
  match max, s with
  | 0, _ => none
  | _ + 1, [] => none
  | m + 1, c :: rest =>
    if c.isDigit then
      some (takeNumAux m (c.toNat - 48) rest)
    else none
where
  takeNumAux : Nat → Nat → List Char → Nat × List Char
  | 0, acc, s => (acc, s)
  | _ + 1, acc, [] => (acc, [])
  | m + 1, acc, c :: rest =>
    if c.isDigit then takeNumAux m (acc * 10 + (c.toNat - 48)) rest else (acc, c :: rest)

/-- Fields accumulated while matching one format against an input string
(date-fns parser state). -/
structure ParsedFields where
  year : Option Int := none
  month : Option Nat := none
  day : Option Nat := none
  h12 : Option Nat := none
  pm : Option Bool := none
  h24 : Option Nat := none
  minute : Option Nat := none
  deriving DecidableEq, Repr

/-- Match one token at the head of `s` (date-fns per-token matcher, including
the per-token range validations date-fns performs). The parsed weekday name is
consumed but not otherwise used, as in date-fns when an explicit day of month
is also present. -/
def matchTok : FTok → List Char → ParsedFields → Option (ParsedFields × List Char)
  | .lit c, s, f =>
    match s with
    | x :: r => if x = c then some (f, r) else none
    | [] => none
  | .weekday, s, f => (matchNameIdx weekdayNames s).map (fun p => (f, p.2))
  | .monthWide, s, f =>
    (matchNameIdx monthWideNames s).map (fun p => ({ f with month := some (p.1 + 1) }, p.2))
  | .monthAbbr, s, f =>
    (matchNameIdx monthAbbrNames s).map (fun p => ({ f with month := some (p.1 + 1) }, p.2))
  | .monthNum, s, f =>
    (takeNum 2 s).bind fun p =>
      if 1 ≤ p.1 ∧ p.1 ≤ 12 then some ({ f with month := some p.1 }, p.2) else none
  | .dayNum, s, f => (takeNum 2 s).map (fun p => ({ f with day := some p.1 }, p.2))
  | .year4, s, f =>
    (takeNum 4 s).bind fun p =>
      if 1 ≤ p.1 then some ({ f with year := some (p.1 : Int) }, p.2) else none
  | .hour12, s, f =>
    (takeNum 2 s).bind fun p =>
      if 1 ≤ p.1 ∧ p.1 ≤ 12 then some ({ f with h12 := some p.1 }, p.2) else none
  | .hour24, s, f =>
    (takeNum 2 s).bind fun p =>
      if p.1 ≤ 23 then some ({ f with h24 := some p.1 }, p.2) else none
  | .minute2, s, f =>
    (takeNum 2 s).bind fun p =>
      if p.1 ≤ 59 then some ({ f with minute := some p.1 }, p.2) else none
  | .meridiem, s, f =>
    match dropCI "am".data s with
    | some r => some ({ f with pm := some false }, r)
    | none =>
      match dropCI "pm".data s with
      | some r => some ({ f with pm := some true }, r)
      | none => none

/-- Run a token list over the input, threading the field record. -/
def runToks : List FTok → List Char → ParsedFields → Option (ParsedFields × List Char)
  | [], s, f => some (f, s)
  | t :: ts, s, f =>
    match matchTok t s f with
    | none => none
    | some (f2, s2) => runToks ts s2 f2

/-- Civil date-time (timezone-naive wall-clock value; seconds and
milliseconds are always zero for values produced by this parser). -/
structure Civil where
  year : Int
  month : Nat
  day : Nat
  hour : Nat
  minute : Nat
  deriving DecidableEq, Repr

/-- Epoch milliseconds of a civil value read as UTC (the JS `Date` encoding
under the UTC-runtime model). -/
def msOfCivil (c : Civil) : Int :=
  daysFromCivil c.year c.month c.day * 86400000 + (c.hour : Int) * 3600000 +
    (c.minute : Int) * 60000

/-- Build the civil result of one successful format match: units absent from
the format come from the reference instant's civil date (year, month, day)
or are zeroed (time units below the parsed ones), and the day of month is
validated against the month's length — date-fns `parse` semantics. -/
def buildCivil (f : ParsedFields) (refDay : Int × Nat × Nat) : Option Civil :=
  let y := f.year.getD refDay.1
  let m := f.month.getD refDay.2.1
  let d := f.day.getD refDay.2.2
  if 1 ≤ d ∧ d ≤ daysInMonth y m then
    let hour :=
      match f.h24 with
      | some h => h
      | none =>
        match f.h12, f.pm with
        | some h, some pm => h % 12 + (if pm then 12 else 0)
        | _, _ => 0
    some ⟨y, m, d, hour, f.minute.getD 0⟩
  else none

/-- The format list `DATE_FORMATS`, ordered most- to least-specific. -/
def DATE_FORMATS : List String :=
  ["EEEE, MMMM d, yyyy h:mm a",
   "MMMM d, yyyy h:mm a",
   "MMM d, yyyy h:mm a",
   "MMMM d, yyyy",
   "MMM d, yyyy",
   "yyyy-MM-dd HH:mm",
   "yyyy-MM-dd",
   "EEEE, MMMM d h:mm a",
   "EEEE MMMM d h:mm a",
   "MMMM d h:mm a",
   "MMM d h:mm a",
   "EEEE, MMMM d",
   "MMMM d",
   "MMM d",
   "h:mm a",
   "h a",
   "ha"]

/-- Model of `parse(normalized, fmt, referenceDate)` + `isValid` for one
format: the whole input must be consumed and the resulting day must be valid. -/
def matchFormatCivil (fmt : String) (s : List Char) (ref : Int) : Option Civil :=
  match runToks (tokenizeFmt fmt.data) s {} with
  | some (f, []) => buildCivil f (utcCivilDayOfMs ref)
  | _ => none

/-- The `for (const fmt of DATE_FORMATS)` loop: first format that parses wins;
the boolean records `fmt.includes('yyyy')` for the winner. -/
def firstFormatAux : List String → List Char → Int → Option (Civil × Bool)
  | [], _, _ => none
  | fmt :: rest, s, ref =>
    match matchFormatCivil fmt s ref with
    | some c => some (c, containsSub fmt.data "yyyy".data)
    | none => firstFormatAux rest s ref

/-! ## Vancouver timezone anchoring and year inference -/

/-- Day of week of a day count (0 = Sunday; 1970-01-01 was a Thursday). -/
def dowOfDays (days : Int) : Nat := ((days + 4).emod 7).toNat

/-- Calendar day of the second Sunday of March of year `y`. -/
def secondSundayMar (y : Int) : Nat := 8 + (7 - dowOfDays (daysFromCivil y 3 1)) % 7

/-- Calendar day of the first Sunday of November of year `y`. -/
def firstSundayNov (y : Int) : Nat := 1 + (7 - dowOfDays (daysFromCivil y 11 1)) % 7

/-- Is the civil wall-clock value inside America/Vancouver daylight-saving
time?  Post-2007 IANA rule: from the second Sunday of March 02:00 to the
first Sunday of November 02:00, local time. -/
def vanIsDST (c : Civil) : Bool :=
  msOfCivil ⟨c.year, 3, secondSundayMar c.year, 2, 0⟩ ≤ msOfCivil c &&
    msOfCivil c < msOfCivil ⟨c.year, 11, firstSundayNov c.year, 2, 0⟩

/-- UTC offset of America/Vancouver in minutes for a civil wall-clock value:
−420 (PDT) during daylight saving, −480 (PST) otherwise. -/
def vanOffsetMin (c : Civil) : Int := if vanIsDST c then -420 else -480

/-- Model of `fromZonedTime(d, 'America/Vancouver')`: read the civil fields of
`d` as wall-clock time in Vancouver and return the corresponding instant. -/
def fromZonedVan (c : Civil) : Int := msOfCivil c - vanOffsetMin c * 60000

/-- date-fns `setYear` under JS `setFullYear` semantics: replace the year,
rolling a day-of-month overflow (Feb 29 → Mar 1) forward. -/
def setYearCiv (c : Civil) (y : Int) : Civil :=
  match civilFromDays (daysFromCivil y c.month 1 + (c.day : Int) - 1) with
  | (y2, m2, d2) => ⟨y2, m2, d2, c.hour, c.minute⟩

/-- date-fns `addYears` (via `addMonths`): add years, clamping the day to the
target month's length (Feb 29 → Feb 28). -/
def addYearsCiv (c : Civil) (n : Int) : Civil :=
  ⟨c.year + n, c.month, min c.day (daysInMonth (c.year + n) c.month), c.hour, c.minute⟩

/-- Embedding of `inferYear(date, referenceDate)`: set the year to the
reference's civil year; if the result is before `referenceDate` minus 14 days
(`twoWeeksAgo`), add one year. -/
def inferYear (c : Civil) (ref : Int) : Civil :=
  let r := setYearCiv c (utcCivilDayOfMs ref).1
  if msOfCivil r < ref - 1209600000 then addYearsCiv r 1 else r

/-- Embedding of `parseVancouverDate(raw, referenceDate)`: `none` models the
`null` return.  The empty string is falsy (`!raw`), the input is normalized,
the formats are tried in order, the year is inferred when the winning format
has no `yyyy` token, and the civil result is anchored to America/Vancouver. -/
def parseVancouverDate (raw : String) (ref : Int) : Option Int :=
  if raw = "" then none
  else
    match firstFormatAux DATE_FORMATS (normalizeDateString raw.data) ref with
    | none => none
    | some (c, hasYear) => some (fromZonedVan (if hasYear then c else inferYear c ref))

/-! ## Scrape orchestrator (`EthicalScraper.runScraper` and the venue loops) -/

/-- Configuration of `EthicalScraper` (`ScraperConfig`). -/
structure ScraperConfig where
  userAgent : String
  delayMs : Nat
  maxRetries : Nat
  timeout : Nat
  deriving DecidableEq, Repr

/-- `DEFAULT_CONFIG` with the environment variables unset. -/
def DEFAULT_CONFIG : ScraperConfig :=
  ⟨"PaperBear/1.0 (Vancouver Community Events Bot; contact@paperbear.dev)", 1500, 3, 30000⟩

/-- Raw event emitted by a venue scraper (`RawEvent`; `none` models an absent
optional field). -/
structure RawEvent where
  title : String
  dateRaw : String
  url : Option String := none
  priceRaw : Option String := none
  doorsRaw : Option String := none
  deriving DecidableEq, Repr

/-- Terminal status of one venue run. -/
inductive ScrapeStatus where
  | success | error | skipped
  deriving DecidableEq, Repr

/-- Result of `runScraper` (`ScrapeResult`).  Wall-clock durations are
modelled as 0; they carry no information relevant to the stated claims. -/
structure ScrapeResult where
  venueId : String
  status : ScrapeStatus
  events : List RawEvent
  errorMessage : Option String := none
  durationMs : Nat := 0
  deriving DecidableEq, Repr

/-- Mutable state of the `EthicalScraper` instance that the claims depend on:
whether `init()` has been called (and `close()` not yet called), i.e. whether
`this.context` is non-null.  The rate-limit watermark does not influence any
returned value and is omitted. -/
structure ScraperState where
  initialized : Bool
  deriving DecidableEq, Repr

/-- A venue scraper together with oracles giving the outcome of the fetch
(`page.goto`/`page.content`, after a successful `init`) and of
`venue.scrape(page, html)` on each attempt number (1-based).  `Except.error`
models a thrown exception carrying its message. -/
structure VenueModel where
  id : String
  name : String
  url : String
  enabled : Bool
  fetchOutcome : Nat → Except String Unit
  scrapeOutcome : Nat → Except String (List RawEvent)

/-- The error message thrown by `fetchDynamic` when `this.context` is null. -/
def initErrMsg : String := "EthicalScraper not initialized. Call init() first."

/-- Combined outcome of one attempt of the `try` block in `runScraper`:
`fetchDynamic` first throws the initialization error if the session is not
initialized, otherwise the fetch outcome; on fetch success the venue's
`scrape` runs.  Any `Except.error` is what the per-attempt `catch` receives. -/
def attemptOutcome (st : ScraperState) (v : VenueModel) (k : Nat) :
    Except String (List RawEvent) :=
  if st.initialized then
    match v.fetchOutcome k with
    | .error e => .error e
    | .ok _ => v.scrapeOutcome k
  else .error initErrMsg

/-- JS `lastError?.message || 'Unknown error'`: an absent or empty message
falls back to `"Unknown error"`. -/
def errMsgOf : Option String → String
  | some m => if m = "" then "Unknown error" else m
  | none => "Unknown error"

/-- The bounded retry loop of `runScraper` (`for attempt = 1..maxRetries`),
instrumented with the number of attempts actually performed (second
component).  `left` is the number of attempts remaining, `attempt` the
1-based index of the next attempt, `lastErr` the last caught message. -/
def runAttempts (st : ScraperState) (v : VenueModel) :
    Nat → Nat → Option String → ScrapeResult × Nat
  | 0, _, lastErr => (⟨v.id, .error, [], some (errMsgOf lastErr), 0⟩, 0)
  | left + 1, attempt, _ =>
    match attemptOutcome st v attempt with
    | .ok evs => (⟨v.id, .success, evs, none, 0⟩, 1)
    | .error e =>
      match runAttempts st v left (attempt + 1) (some e) with
      | (r, n) => (r, n + 1)

/-- Embedding of `runScraper(venue)` returning the `ScrapeResult` together
with the number of attempts performed.  A disabled venue is skipped with no
attempt; otherwise the retry loop runs with the configured maximum.  The
function is total: no exception ever propagates to the caller. -/
def runScraperCounted (cfg : ScraperConfig) (st : ScraperState) (v : VenueModel) :
    ScrapeResult × Nat :=
  if v.enabled then runAttempts st v cfg.maxRetries 1 none
  else (⟨v.id, .skipped, [], none, 0⟩, 0)

/-- The `ScrapeResult` of `runScraper(venue)`. -/
def runScraper (cfg : ScraperConfig) (st : ScraperState) (v : VenueModel) : ScrapeResult :=
  (runScraperCounted cfg st v).1

/-- The venue loop of `scripts/scrape.ts` / the API route: venues processed
strictly sequentially, one `ScrapeResult` each (the shared session state is
unchanged by `runScraper`, so the loop is a map). -/
def runAll (cfg : ScraperConfig) (st : ScraperState) (vs : List VenueModel) :
    List ScrapeResult :=
  vs.map (runScraper cfg st)

/-! ## Normalization step (`normalizeEvents`, duplicated in
`scripts/scrape.ts` and `src/pages/api/scrape.ts`) -/

/-- Normalized event of `scripts/scrape.ts` (dates as epoch ms; `eventType`
as the enum whose string name is stored). -/
structure NormalizedEvent where
  id : String
  venueId : String
  title : String
  date : Int
  doorsTime : Option Int
  url : Option String
  price : Option Nat
  isFree : Bool
  eventType : EventType
  hash : String
  deriving DecidableEq, Repr

/-- `raw.doorsRaw ? parseVancouverDate(raw.doorsRaw) : null`: absent or empty
(falsy) doors string gives `null`; a doors string that fails to parse also
gives `null` — it never drops the event. -/
def doorsTimeOf (r : RawEvent) (now : Int) : Option Int :=
  match r.doorsRaw with
  | some s => if s = "" then none else parseVancouverDate s now
  | none => none

/-- `raw.url || null` (empty string is falsy). -/
def urlOf (r : RawEvent) : Option String :=
  match r.url with
  | some u => if u = "" then none else some u
  | none => none

/-- One pushed record of `normalizeEvents` (`randomUUID` is modelled by an
id oracle applied to the output position `k`; `now` models the implicit
`new Date()` reference of `parseVancouverDate`). -/
def mkNormalized (uuid : Nat → String) (k : Nat) (venueId : String) (now : Int)
    (r : RawEvent) (d : Int) : NormalizedEvent :=
  { id := uuid k, venueId := venueId, title := r.title, date := d,
    doorsTime := doorsTimeOf r now, url := urlOf r,
    price := (parsePrice r.priceRaw).price, isFree := (parsePrice r.priceRaw).isFree,
    eventType := classifyEventType r.title,
    hash := generateEventHash venueId d r.title }

/-- The loop body of `normalizeEvents` (`k` counts records pushed so far). -/
def normalizeEventsAux (uuid : Nat → String) (venueId : String) (now : Int) :
    List RawEvent → Nat → List NormalizedEvent
  | [], _ => []
  | r :: rest, k =>
    match parseVancouverDate r.dateRaw now with
    | none => normalizeEventsAux uuid venueId now rest k
    | some d => mkNormalized uuid k venueId now r d :: normalizeEventsAux uuid venueId now rest (k + 1)

/-- Embedding of `normalizeEvents(venueId, rawEvents)` from `scripts/scrape.ts`:
a raw event whose primary date fails to parse is skipped (`continue`); all
other fields never cause a skip. -/
def normalizeEvents (uuid : Nat → String) (venueId : String) (raws : List RawEvent)
    (now : Int) : List NormalizedEvent :=
  normalizeEventsAux uuid venueId now raws 0

/-- Normalized event of the API route copy (`src/pages/api/scrape.ts`), which
additionally stamps `createdAt`/`updatedAt`. -/
structure ApiNormalizedEvent where
  id : String
  venueId : String
  title : String
  date : Int
  doorsTime : Option Int
  url : Option String
  price : Option Nat
  isFree : Bool
  eventType : EventType
  hash : String
  createdAt : Int
  updatedAt : Int
  deriving DecidableEq, Repr

/-- The loop body of the API route's `normalizeEvents` copy. -/
def normalizeEventsApiAux (uuid : Nat → String) (venueId : String) (now : Int) :
    List RawEvent → Nat → List ApiNormalizedEvent
  | [], _ => []
  | r :: rest, k =>
    match parseVancouverDate r.dateRaw now with
    | none => normalizeEventsApiAux uuid venueId now rest k
    | some d =>
      { id := uuid k, venueId := venueId, title := r.title, date := d,
        doorsTime := doorsTimeOf r now, url := urlOf r,
        price := (parsePrice r.priceRaw).price, isFree := (parsePrice r.priceRaw).isFree,
        eventType := classifyEventType r.title,
        hash := generateEventHash venueId d r.title,
        createdAt := now, updatedAt := now } :: normalizeEventsApiAux uuid venueId now rest (k + 1)

/-- Embedding of the duplicated `normalizeEvents` in `src/pages/api/scrape.ts`
(identical skip logic). -/
def normalizeEventsApi (uuid : Nat → String) (venueId : String) (raws : List RawEvent)
    (now : Int) : List ApiNormalizedEvent :=
  normalizeEventsApiAux uuid venueId now raws 0

/-- Per-venue handling in the orchestrator loop after `runScraper` returns:
the result's status is recorded as-is, and normalization runs only on a
`success` result (so dropping unparsable raw events never changes the
status). -/
def processResult (uuid : Nat → String) (now : Int) (venueId : String)
    (res : ScrapeResult) : ScrapeStatus × List NormalizedEvent :=
  (res.status, if res.status = .success then normalizeEvents uuid venueId res.events now else [])

/-! ## Specification-side definitions (restatements of spec sentences, for
comparison with the embedded code) -/

/-- Specification reading of the classifier (§4.2): count keyword hits per
category, take the maximum, return the first category in declaration order
(`music`, `comedy`, `theatre`, `screening`) attaining it; an all-zero score
yields `other`. -/
def specClassify (title : String) : EventType :=
  let n := lowerStr title.data
  let a := scoreFor musicKeywords n
  let b := scoreFor comedyKeywords n
  let c := scoreFor theatreKeywords n
  let d := scoreFor screeningKeywords n
  let m := max (max a b) (max c d)
  if m = 0 then .other
  else if a = m then .music
  else if b = m then .comedy
  else if c = m then .theatre
  else .screening

/-- Strip one leading occurrence of a pattern (used by the claim's reading of
the preprocessing step "strip leading doors/show prefix phrases"). -/
def stripLeading (m : List Char → Option (List Char)) (l : List Char) : List Char :=
  match m l with
  | some r => r
  | none => l

/-- Claim reading of the normalization (C9 as stated): the documented steps
in order, with the doors/show patterns stripped only when they are leading. -/
def claimNormalizeDateString (l : List Char) : List Char :=
  trimBoth (stripLeading matchShow (stripLeading matchDoors
    (meridiemSpace (removeDots (stripOrdinals (commaSpace (collapseWs (trimBoth l))))))))

/-- The parser as claim C9 states it: the documented preprocessing (with
leading-only doors/show stripping) followed by the ordered first-match over
`DATE_FORMATS`. -/
def claimParseVancouverDate (raw : String) (ref : Int) : Option Int :=
  if raw = "" then none
  else
    match
      DATE_FORMATS.findSome? (fun fmt =>
        (matchFormatCivil fmt (claimNormalizeDateString raw.data) ref).map
          (fun c => (c, containsSub fmt.data "yyyy".data))) with
    | none => none
    | some (c, hasYear) => some (fromZonedVan (if hasYear then c else inferYear c ref))

/-- The ordered preprocessing step list of §4.1 with the doors/show stripping
amended to act anywhere in the string (as the source's global regexes do). -/
def amendedSteps : List (List Char → List Char) :=
  [collapseWs, commaSpace, stripOrdinals, removeDots, meridiemSpace,
   stripAll matchDoors, stripAll matchShow]

/-- Amended specification normalization: apply the documented steps in order
(between the two trims) as a fold over the step list. -/
def amendedNormalizeDateString (l : List Char) : List Char :=
  trimBoth (amendedSteps.foldl (fun s f => f s) (trimBoth l))

/-- Amended specification parser (C9 corrected): documented preprocessing with
anywhere-stripping, then the first format of `DATE_FORMATS` (in order) that
parses the whole normalized string, then year inference for year-less formats
and Vancouver anchoring. -/
def amendedParseVancouverDate (raw : String) (ref : Int) : Option Int :=
  if raw = "" then none
  else
    match
      DATE_FORMATS.findSome? (fun fmt =>
        (matchFormatCivil fmt (amendedNormalizeDateString raw.data) ref).map
          (fun c => (c, containsSub fmt.data "yyyy".data))) with
    | none => none
    | some (c, hasYear) => some (fromZonedVan (if hasYear then c else inferYear c ref))

/-! ## Sample data for concrete instances -/

/-- Enabled venue whose fetch and extraction always succeed. -/
def venueOkA : VenueModel :=
  ⟨"venue-a", "Venue A", "https://a.example/events", true,
   fun _ => .ok (), fun _ => .ok [⟨"A Show", "Jan 12, 2024 7:30 PM", none, none, none⟩]⟩

/-- Second enabled venue whose fetch and extraction always succeed. -/
def venueOkB : VenueModel :=
  ⟨"venue-b", "Venue B", "https://b.example/events", true,
   fun _ => .ok (), fun _ => .ok [⟨"B Show", "Jan 13, 2024 8:00 PM", none, none, none⟩]⟩

/-- Scraper state before `init()` (or after `close()`): `this.context` is null. -/
def uninitState : ScraperState := ⟨false⟩

/-- Scraper state after a successful `init()`. -/
def initState : ScraperState := ⟨true⟩

/-- Raw event with a parseable primary date and a doors string that fails to
parse. -/
def goodRaw : RawEvent :=
  ⟨"Good Show", "Jan 12, 2024 7:30 PM", some "https://x.example/good", some "$15", some "whenever"⟩

/-- Raw event whose primary date string fails to parse. -/
def badRaw : RawEvent := ⟨"Bad Show", "mystery date", none, none, none⟩

/-- Constant id oracle for concrete normalization runs. -/
def uuid0 : Nat → String := fun k => "id-" ++ toString k

/-- Concrete reference instant 2024-01-01T00:00:00Z. -/
def now0 : Int := 1704067200000


/-! ## Supporting lemmas -/

set_option maxRecDepth 40000 in
/-- MD5 sanity vector: digest of `"abc"` (RFC 1321 test suite). -/
theorem md5_abc_vector : md5Hex (utf8Bytes "abc") = "900150983cd24fb0d6963f7d28e17f72" := by
  decide

set_option maxRecDepth 40000 in
/-- MD5 sanity vector: digest of the empty message (RFC 1321 test suite). -/
theorem md5_empty_vector : md5Hex (utf8Bytes "") = "d41d8cd98f00b204e9800998ecf8427e" := by
  decide

/-- The selection fold of `classifyEventType` agrees with the
first-category-attaining-the-maximum description. -/
theorem bestOf_pick (a b c d : Nat) :
    (bestOf [(EventType.music, a), (EventType.comedy, b), (EventType.theatre, c),
      (EventType.screening, d), (EventType.other, 0)]).1 =
    (if max (max a b) (max c d) = 0 then EventType.other
     else if a = max (max a b) (max c d) then EventType.music
     else if b = max (max a b) (max c d) then EventType.comedy
     else if c = max (max a b) (max c d) then EventType.theatre
     else EventType.screening) := by
  simp only [bestOf, List.foldl]
  split_ifs <;> dsimp only at * <;> first | rfl | omega

/-- The format loop equals a first-match (`findSome?`) over the format list. -/
theorem firstFormat_findSome (fmts : List String) (s : List Char) (ref : Int) :
    firstFormatAux fmts s ref = fmts.findSome? (fun fmt =>
      (matchFormatCivil fmt s ref).map (fun c => (c, containsSub fmt.data "yyyy".data))) := by
  induction fmts with
  | nil => rfl
  | cons fmt rest ih =>
    simp only [firstFormatAux, List.findSome?_cons]
    cases h : matchFormatCivil fmt s ref <;> simp [h, ih]

/-- When every attempt fails, the retry loop performs all remaining attempts
and reports the message of the last one. -/
theorem runAttempts_fail (st : ScraperState) (v : VenueModel) (msgs : Nat → String)
    (h : ∀ k, attemptOutcome st v k = .error (msgs k)) :
    ∀ left attempt lastErr, 1 ≤ left →
      runAttempts st v left attempt lastErr =
        (⟨v.id, .error, [], some (errMsgOf (some (msgs (attempt + left - 1)))), 0⟩, left) := by
  intro left
  induction left with
  | zero => intro attempt lastErr hle; omega
  | succ n ih =>
    intro attempt lastErr _
    simp only [runAttempts, h attempt]
    cases n with
    | zero => simp [runAttempts]
    | succ m =>
      rw [ih (attempt + 1) (some (msgs attempt)) (by omega)]
      have harith : attempt + 1 + (m + 1) - 1 = attempt + (m + 1 + 1) - 1 := by omega
      rw [harith]

/-- A successful attempt ends the retry loop immediately with status
`success` and the scraped events. -/
theorem runAttempts_ok (st : ScraperState) (v : VenueModel) (evs : List RawEvent)
    (left attempt : Nat) (lastErr : Option String) (hle : 1 ≤ left)
    (h : attemptOutcome st v attempt = .ok evs) :
    runAttempts st v left attempt lastErr = (⟨v.id, .success, evs, none, 0⟩, 1) := by
  cases left with
  | zero => omega
  | succ n => simp [runAttempts, h]

/-- Title/date/doors projection of the `normalizeEvents` loop: one output per
raw event whose primary date parses, in input order. -/
theorem normalizeEventsAux_proj (uuid : Nat → String) (venueId : String) (now : Int) :
    ∀ (raws : List RawEvent) (k : Nat),
      (normalizeEventsAux uuid venueId now raws k).map (fun e => (e.title, e.date, e.doorsTime)) =
        raws.filterMap (fun r => (parseVancouverDate r.dateRaw now).map
          (fun d => (r.title, d, doorsTimeOf r now))) := by
  intro raws
  induction raws with
  | nil => intro k; rfl
  | cons r rest ih =>
    intro k
    simp only [normalizeEventsAux, List.filterMap_cons]
    cases h : parseVancouverDate r.dateRaw now with
    | none => simp [h, ih k]
    | some d => simp [h, ih (k + 1), mkNormalized]

/-- Same projection for the API route's copy of `normalizeEvents`. -/
theorem normalizeEventsApiAux_proj (uuid : Nat → String) (venueId : String) (now : Int) :
    ∀ (raws : List RawEvent) (k : Nat),
      (normalizeEventsApiAux uuid venueId now raws k).map (fun e => (e.title, e.date, e.doorsTime)) =
        raws.filterMap (fun r => (parseVancouverDate r.dateRaw now).map
          (fun d => (r.title, d, doorsTimeOf r now))) := by
  intro raws
  induction raws with
  | nil => intro k; rfl
  | cons r rest ih =>
    intro k
    simp only [normalizeEventsApiAux, List.filterMap_cons]
    cases h : parseVancouverDate r.dateRaw now with
    | none => simp [h, ih k]
    | some d => simp [h, ih (k + 1)]

/-- Failing venue: every fetch throws (attempt-numbered message). -/
def venueFail : VenueModel :=
  ⟨"venue-fail", "Failing Venue", "https://fail.example/events", true,
   fun k => .error ("network down " ++ toString k), fun _ => .ok []⟩

/-- Helper: a winning format with an explicit year anchors the civil value
directly (no year inference). -/
theorem parse_hasYear (raw : String) (ref : Int) (c : Civil)
    (h : firstFormatAux DATE_FORMATS (normalizeDateString raw.data) ref = some (c, true)) :
    parseVancouverDate raw ref = some (fromZonedVan c) := by
  by_cases hr : raw = ""
  · rw [hr] at h
    rw [show firstFormatAux DATE_FORMATS (normalizeDateString "".data) ref = none from rfl] at h
    simp at h
  · simp [parseVancouverDate, if_neg hr, h]

/-- Helper: a winning format without a year token goes through `inferYear`. -/
theorem parse_noYear (raw : String) (ref : Int) (c : Civil)
    (h : firstFormatAux DATE_FORMATS (normalizeDateString raw.data) ref = some (c, false)) :
    parseVancouverDate raw ref = some (fromZonedVan (inferYear c ref)) := by
  by_cases hr : raw = ""
  · rw [hr] at h
    rw [show firstFormatAux DATE_FORMATS (normalizeDateString "".data) ref = none from rfl] at h
    simp at h
  · simp [parseVancouverDate, if_neg hr, h]

/-- Helper: when every attempt fails and the venue is enabled, `runScraper`
consumes exactly `maxRetries` attempts and reports the last message. -/
theorem runScraperCounted_allFail (cfg : ScraperConfig) (st : ScraperState) (v : VenueModel)
    (msgs : Nat → String) (hen : v.enabled = true) (hge : 1 ≤ cfg.maxRetries)
    (hfail : ∀ k, attemptOutcome st v k = .error (msgs k)) (hne : msgs cfg.maxRetries ≠ "") :
    runScraperCounted cfg st v =
      (⟨v.id, .error, [], some (msgs cfg.maxRetries), 0⟩, cfg.maxRetries) := by
  simp only [runScraperCounted, hen, if_true]
  rw [runAttempts_fail st v msgs hfail cfg.maxRetries 1 none hge]
  have h1 : 1 + cfg.maxRetries - 1 = cfg.maxRetries := by omega
  rw [h1]
  simp [errMsgOf, hne]

/-- Helper: an enabled venue whose first attempt succeeds yields `success`
with the scraped events after one attempt. -/
theorem runScraperCounted_okFirst (cfg : ScraperConfig) (st : ScraperState) (v : VenueModel)
    (evs : List RawEvent) (hen : v.enabled = true) (hge : 1 ≤ cfg.maxRetries)
    (hok : attemptOutcome st v 1 = .ok evs) :
    runScraperCounted cfg st v = (⟨v.id, .success, evs, none, 0⟩, 1) := by
  simp only [runScraperCounted, hen, if_true]
  exact runAttempts_ok st v evs cfg.maxRetries 1 none hge hok

/-- C4: a venue whose fetch or extraction throws on every attempt yields an
error-status result with the last thrown (non-empty) message after exactly
`maxRetries` attempts — `runScraper` is a total function, so the exception
never propagates — and in a two-venue run the failing venue leaves the other
venue's success result and events intact. -/
theorem C4_retry_and_isolation :
    (∀ (cfg : ScraperConfig) (st : ScraperState) (v : VenueModel) (msgs : Nat → String),
      v.enabled = true → 1 ≤ cfg.maxRetries →
      (∀ k, attemptOutcome st v k = .error (msgs k)) →
      msgs cfg.maxRetries ≠ "" →
      runScraperCounted cfg st v =
        (⟨v.id, .error, [], some (msgs cfg.maxRetries), 0⟩, cfg.maxRetries)) ∧
    (∀ (cfg : ScraperConfig) (st : ScraperState) (A B : VenueModel)
      (msgs : Nat → String) (evs : List RawEvent),
      A.enabled = true → B.enabled = true → 1 ≤ cfg.maxRetries →
      (∀ k, attemptOutcome st A k = .error (msgs k)) →
      msgs cfg.maxRetries ≠ "" →
      attemptOutcome st B 1 = .ok evs →
      runAll cfg st [A, B] =
        [⟨A.id, .error, [], some (msgs cfg.maxRetries), 0⟩,
         ⟨B.id, .success, evs, none, 0⟩]) := by
  refine ⟨runScraperCounted_allFail, ?_⟩
  intro cfg st A B msgs evs henA henB hge hfailA hne hokB
  simp only [runAll, List.map, runScraper]
  rw [runScraperCounted_allFail cfg st A msgs henA hge hfailA hne,
    runScraperCounted_okFirst cfg st B evs henB hge hokB]

/-- C4 witness: a concrete always-failing venue and a concrete succeeding
venue under the default configuration (3 retries). -/
theorem C4_retry_and_isolation_witness :
    runAll DEFAULT_CONFIG initState [venueFail, venueOkB] =
      [⟨"venue-fail", .error, [], some "network down 3", 0⟩,
       ⟨"venue-b", .success, [⟨"B Show", "Jan 13, 2024 8:00 PM", none, none, none⟩], none, 0⟩] :=
  C4_retry_and_isolation.2 DEFAULT_CONFIG initState venueFail venueOkB
    (fun k => "network down " ++ toString k)
    [⟨"B Show", "Jan 13, 2024 8:00 PM", none, none, none⟩]
    rfl rfl (by decide) (fun _ => rfl) (by decide) rfl

/-- C5 counterexample: with the session uninitialized, `runScraper` on an
enabled venue performs all 3 default attempts (the ConfigurationFailure IS
retried), returns a per-venue error-status result carrying the
initialization message (it DOES surface like fetch/extraction failures), and
a two-venue run still processes the second venue (the run is NOT aborted) —
contrary to the claim's fatal/abort/no-retry description. -/
theorem C5_config_failure_counterexample :
    runScraperCounted DEFAULT_CONFIG uninitState venueOkA =
      (⟨"venue-a", .error, [], some initErrMsg, 0⟩, 3) ∧
    runAll DEFAULT_CONFIG uninitState [venueOkA, venueOkB] =
      [⟨"venue-a", .error, [], some initErrMsg, 0⟩,
       ⟨"venue-b", .error, [], some initErrMsg, 0⟩] :=
  ⟨rfl, rfl⟩

/-- C5 (amended): using the fetch session before `init()` (or after
`close()`) throws the ConfigurationFailure message, which the per-venue retry
loop catches and retries like any other failure, exhausting the configured
attempts and surfacing as a per-venue error-status result; the venue loop
continues with the remaining venues instead of aborting. -/
theorem C5_config_failure_amended :
    (∀ (cfg : ScraperConfig) (v : VenueModel), v.enabled = true → 1 ≤ cfg.maxRetries →
      runScraperCounted cfg uninitState v =
        (⟨v.id, .error, [], some initErrMsg, 0⟩, cfg.maxRetries)) ∧
    (∀ (cfg : ScraperConfig) (vs : List VenueModel),
      (runAll cfg uninitState vs).length = vs.length) := by
  constructor
  · intro cfg v hen hge
    exact runScraperCounted_allFail cfg uninitState v (fun _ => initErrMsg) hen hge
      (fun _ => rfl) (show initErrMsg ≠ "" by decide)
  · intro cfg vs
    simp [runAll]

/-- C5 witness: the amended statement applied to a concrete enabled venue
under the default configuration. -/
theorem C5_config_failure_amended_witness :
    runScraperCounted DEFAULT_CONFIG uninitState venueOkB =
      (⟨"venue-b", .error, [], some initErrMsg, 0⟩, 3) :=
  C5_config_failure_amended.1 DEFAULT_CONFIG venueOkB rfl (by decide)

set_option maxRecDepth 100000 in
/-- C1: the deduplication hash is MD5 of `venueId|<civil day>|<normalized
title>`; it depends only on the venue id, the instant's civil day and the
lower-cased/trimmed/whitespace-collapsed title (so equal inputs — including
different times of the same day and retitlings that normalize equally — give
the identical digest), and changing any one of venue, civil day, or
normalized title changes the digest on the exhibited inputs. -/
theorem C1_dedup_hash :
    (∀ (v : String) (d : Int) (t : String),
      generateEventHash v d t =
        md5Hex (utf8Bytes (v ++ "|" ++ isoDayOfMs d ++ "|" ++ normalizeTitle t))) ∧
    (∀ (v : String) (d d2 : Int) (t t2 : String),
      isoDayOfMs d = isoDayOfMs d2 → normalizeTitle t = normalizeTitle t2 →
      generateEventHash v d t = generateEventHash v d2 t2) ∧
    generateEventHash "rio-theatre" 1705087800000 "Big Concert" =
      generateEventHash "rio-theatre" 1705035600000 "  BIG   concert " ∧
    generateEventHash "rio-theatre" 1705087800000 "Big Concert" ≠
      generateEventHash "rio-theatre" 1705087800000 "Other Show" ∧
    generateEventHash "rio-theatre" 1705087800000 "Big Concert" ≠
      generateEventHash "rio-theatre" 1705174200000 "Big Concert" ∧
    generateEventHash "rio-theatre" 1705087800000 "Big Concert" ≠
      generateEventHash "fox-cabaret" 1705087800000 "Big Concert" := by
  refine ⟨fun _ _ _ => rfl, ?_, by decide, by decide, by decide, by decide⟩
  intro v d d2 t t2 h1 h2
  simp only [generateEventHash, h1, h2]

set_option maxRecDepth 100000 in
/-- C1 witness: the day/title congruence applied at two instants of the civil
day 2024-01-12 and two spellings normalizing to `"big concert"`. -/
theorem C1_dedup_hash_witness :
    generateEventHash "rio-theatre" 1705087800000 "Big Concert" =
      generateEventHash "rio-theatre" 1705046400000 "BIG CONCERT" :=
  C1_dedup_hash.2.1 "rio-theatre" 1705087800000 1705046400000 "Big Concert" "BIG CONCERT"
    (by decide) (by decide)

set_option maxRecDepth 100000 in
set_option maxHeartbeats 1000000 in
/-- C2: when the winning pattern lacks a year token the parse result goes
through `inferYear`, which assigns the reference instant's civil year and
advances it by one exactly when the assigned date lies strictly more than 14
days (1209600000 ms) before the reference instant.  Concretely: reference
2023-12-25T00:00:00Z with `"Jan 4 8:00 PM"` yields an instant in civil year
2024; at reference 2024-06-15T00:00:00Z, `"Jun 1"` (exactly 14 days before)
keeps year 2024 while `"May 31"` (more than 14 days before) advances to
2025. -/
theorem C2_year_inference :
    (∀ (raw : String) (ref : Int) (c : Civil),
      firstFormatAux DATE_FORMATS (normalizeDateString raw.data) ref = some (c, false) →
      parseVancouverDate raw ref = some (fromZonedVan (inferYear c ref))) ∧
    (∀ (c : Civil) (ref : Int),
      msOfCivil (setYearCiv c (utcCivilDayOfMs ref).1) < ref - 1209600000 →
      inferYear c ref = addYearsCiv (setYearCiv c (utcCivilDayOfMs ref).1) 1) ∧
    (∀ (c : Civil) (ref : Int),
      ¬ msOfCivil (setYearCiv c (utcCivilDayOfMs ref).1) < ref - 1209600000 →
      inferYear c ref = setYearCiv c (utcCivilDayOfMs ref).1) ∧
    (∀ (r : Civil) (n : Int), (addYearsCiv r n).year = r.year + n) ∧
    parseVancouverDate "Jan 4 8:00 PM" 1703462400000 = some 1704427200000 ∧
    (utcCivilDayOfMs 1703462400000).1 = 2023 ∧
    (utcCivilDayOfMs 1704427200000).1 = 2024 ∧
    parseVancouverDate "Jun 1" 1718409600000 = some 1717225200000 ∧
    (utcCivilDayOfMs 1717225200000).1 = 2024 ∧
    parseVancouverDate "May 31" 1718409600000 = some 1748674800000 ∧
    (utcCivilDayOfMs 1748674800000).1 = 2025 := by
  refine ⟨parse_noYear, ?_, ?_, fun _ _ => rfl, by decide, by decide, by decide,
    by decide, by decide, by decide, by decide⟩
  · intro c ref h
    simp only [inferYear]
    rw [if_pos h]
  · intro c ref h
    simp only [inferYear]
    rw [if_neg h]

set_option maxRecDepth 100000 in
/-- C2 witness: the no-year clause applied at `"Jan 4 8:00 PM"` with the
claim's reference instant 2023-12-25T00:00:00Z. -/
theorem C2_year_inference_witness :
    parseVancouverDate "Jan 4 8:00 PM" 1703462400000 =
      some (fromZonedVan (inferYear ⟨2023, 1, 4, 20, 0⟩ 1703462400000)) :=
  C2_year_inference.1 "Jan 4 8:00 PM" 1703462400000 ⟨2023, 1, 4, 20, 0⟩ (by decide)

set_option maxRecDepth 100000 in
set_option maxHeartbeats 2000000 in
/-- C3: a winning pattern with an explicit year is anchored directly as
wall-clock time in America/Vancouver using the offset in effect on that civil
date (no year inference, no dependence on the reference instant): for every
reference, `"Friday, January 12, 2024 7:30 PM"` yields 2024-01-13T03:30:00Z
(PST, −8h) and `"July 12, 2024 7:30 PM"` yields 2024-07-13T02:30:00Z
(PDT, −7h). -/
theorem C3_explicit_year_instant :
    (∀ (raw : String) (ref : Int) (c : Civil),
      firstFormatAux DATE_FORMATS (normalizeDateString raw.data) ref = some (c, true) →
      parseVancouverDate raw ref = some (fromZonedVan c)) ∧
    (∀ ref : Int,
      parseVancouverDate "Friday, January 12, 2024 7:30 PM" ref = some 1705116600000) ∧
    (∀ ref : Int, parseVancouverDate "July 12, 2024 7:30 PM" ref = some 1720837800000) ∧
    vanOffsetMin ⟨2024, 1, 12, 19, 30⟩ = -480 ∧
    vanOffsetMin ⟨2024, 7, 12, 19, 30⟩ = -420 := by
  refine ⟨parse_hasYear, ?_, ?_, by decide, by decide⟩
  · intro ref
    exact (parse_hasYear "Friday, January 12, 2024 7:30 PM" ref ⟨2024, 1, 12, 19, 30⟩
      rfl).trans (by decide)
  · intro ref
    exact (parse_hasYear "July 12, 2024 7:30 PM" ref ⟨2024, 7, 12, 19, 30⟩
      rfl).trans (by decide)

set_option maxRecDepth 100000 in
/-- C3 witness: the explicit-year clause applied at the numeric format
`"2024-01-12 19:30"` with reference 0. -/
theorem C3_explicit_year_instant_witness :
    parseVancouverDate "2024-01-12 19:30" 0 = some (fromZonedVan ⟨2024, 1, 12, 19, 30⟩) :=
  C3_explicit_year_instant.1 "2024-01-12 19:30" 0 ⟨2024, 1, 12, 19, 30⟩ (by decide)

set_option maxRecDepth 100000 in
/-- C9 counterexample: the claim's "strip **leading** doors/show prefix
phrases" does not match the code, whose global regexes strip the phrases
anywhere.  On `"8:00 PM doors"` the claim's pipeline leaves the trailing
`"doors"` in place, so no pattern consumes the whole string and the claimed
parser returns `none`, while the code strips it and parses 8:00 PM (Vancouver)
to 2024-01-02T04:00:00Z at reference 2024-01-01T00:00:00Z. -/
theorem C9_preprocessing_counterexample :
    claimParseVancouverDate "8:00 PM doors" 1704067200000 = none ∧
    parseVancouverDate "8:00 PM doors" 1704067200000 = some 1704168000000 := by
  exact ⟨by decide, by decide⟩

/-- C9 (amended): `parseVancouverDate` equals the specification pipeline in
which the documented preprocessing steps are applied unconditionally in
order — collapse whitespace, normalize comma spacing, strip ordinal suffixes,
remove periods, space digit-meridiem pairs, then strip every occurrence (not
only leading) of the doors/show phrases — followed by the first format of the
ordered `DATE_FORMATS` list that parses the entire normalized string. -/
theorem C9_preprocessing_amended :
    ∀ (raw : String) (ref : Int),
      parseVancouverDate raw ref = amendedParseVancouverDate raw ref := by
  intro raw ref
  by_cases hr : raw = ""
  · simp [parseVancouverDate, amendedParseVancouverDate, hr]
  · simp only [parseVancouverDate, amendedParseVancouverDate, if_neg hr]
    rw [firstFormat_findSome,
      show amendedNormalizeDateString raw.data = normalizeDateString raw.data from rfl,
      show "yyyy".data = ['y', 'y', 'y', 'y'] from rfl]

set_option maxRecDepth 200000 in
/-- C6: normalization drops exactly the raw events whose primary date string
fails to parse (output = the parseable inputs, in order, with their parsed
date and independently parsed doors time), identically in both copies of
`normalizeEvents`; a doors string that fails to parse leaves the event in
place with an absent (`none`) doors time, and the venue's result status stays
`success` around normalization.  Concretely: a batch with one event whose
doors string `"whenever"` is unparsable and one event with unparsable primary
date `"mystery date"` yields a success venue with exactly the first event,
doors absent. -/
theorem C6_normalization_drops :
    (∀ (uuid : Nat → String) (venueId : String) (raws : List RawEvent) (now : Int),
      (normalizeEvents uuid venueId raws now).map (fun e => (e.title, e.date, e.doorsTime)) =
        raws.filterMap (fun r => (parseVancouverDate r.dateRaw now).map
          (fun d => (r.title, d, doorsTimeOf r now)))) ∧
    (∀ (uuid : Nat → String) (venueId : String) (raws : List RawEvent) (now : Int),
      (normalizeEventsApi uuid venueId raws now).map (fun e => (e.title, e.date, e.doorsTime)) =
        raws.filterMap (fun r => (parseVancouverDate r.dateRaw now).map
          (fun d => (r.title, d, doorsTimeOf r now)))) ∧
    (processResult uuid0 now0 "venue-a" ⟨"venue-a", .success, [goodRaw, badRaw], none, 0⟩).1 =
      ScrapeStatus.success ∧
    (processResult uuid0 now0 "venue-a" ⟨"venue-a", .success, [goodRaw, badRaw], none, 0⟩).2.map
      (fun e => (e.title, e.doorsTime)) = [("Good Show", none)] ∧
    goodRaw.doorsRaw = some "whenever" ∧
    parseVancouverDate "whenever" now0 = none ∧
    parseVancouverDate badRaw.dateRaw now0 = none := by
  refine ⟨fun uuid venueId raws now => normalizeEventsAux_proj uuid venueId now raws 0,
    fun uuid venueId raws now => normalizeEventsApiAux_proj uuid venueId now raws 0,
    rfl, by decide, rfl, by decide, by decide⟩

/-- C7: `parsePrice` returns `{null, false}` on absent input, `{0, true}` on a
case-insensitive match of the fixed free-indicator set, and otherwise the
first numeric token (optionally preceded by a currency symbol) rounded to
integer cents, taking the first number of a range; with no numeric match it
returns `{null, false}`. -/
theorem C7_parse_price :
    parsePrice none = ⟨none, false⟩ ∧
    parsePrice (some "free") = ⟨some 0, true⟩ ∧
    parsePrice (some "FREE") = ⟨some 0, true⟩ ∧
    parsePrice (some "pwyc") = ⟨some 0, true⟩ ∧
    parsePrice (some "Pay What You Can") = ⟨some 0, true⟩ ∧
    parsePrice (some "$0") = ⟨some 0, true⟩ ∧
    parsePrice (some "0") = ⟨some 0, true⟩ ∧
    parsePrice (some "$15") = ⟨some 1500, false⟩ ∧
    parsePrice (some "$15-$25") = ⟨some 1500, false⟩ ∧
    parsePrice (some "12.50") = ⟨some 1250, false⟩ ∧
    (∀ s : String, freeIndicator (normalizePrice s) = false →
      firstNum (normalizePrice s) = none → parsePrice (some s) = ⟨none, false⟩) ∧
    (∀ (s : String) (v : Nat) (fr : Option Nat), freeIndicator (normalizePrice s) = false →
      firstNum (normalizePrice s) = some (v, fr) →
      parsePrice (some s) = ⟨some (v * 100 + fr.getD 0), false⟩) := by
  refine ⟨rfl, by decide, by decide, by decide, by decide, by decide, by decide,
    by decide, by decide, by decide, ?_, ?_⟩
  · intro s hfree hnum
    by_cases hs : s = ""
    · simp [parsePrice, hs]
    · simp [parsePrice, hs, hfree, hnum]
  · intro s v fr hfree hnum
    by_cases hs : s = ""
    · rw [hs] at hnum
      simp [normalizePrice, trimBoth, lowerStr, firstNum] at hnum
    · simp [parsePrice, hs, hfree, hnum]

/-- C7 witness: the general numeric-extraction clause applied at `"$15"`. -/
theorem C7_parse_price_witness : parsePrice (some "$15") = ⟨some 1500, false⟩ :=
  C7_parse_price.2.2.2.2.2.2.2.2.2.2.2 "$15" 15 none (by decide) (by decide)

/-- C10: whenever `parsePrice` reports `isFree = true` it also reports
`price = 0`; the converse fails, e.g. a numerically parsed `"$0.00"` gives
price 0 with `isFree = false`. -/
theorem C10_isfree_zero_price :
    (∀ raw : Option String, (parsePrice raw).isFree = true → (parsePrice raw).price = some 0) ∧
    parsePrice (some "$0.00") = ⟨some 0, false⟩ := by
  constructor
  · intro raw h
    match raw with
    | none => simp [parsePrice] at h
    | some s =>
      by_cases hs : s = ""
      · simp [parsePrice, hs] at h
      · by_cases hf : freeIndicator (normalizePrice s) = true
        · simp [parsePrice, hs, hf]
        · exfalso
          rw [Bool.not_eq_true] at hf
          cases hm : firstNum (normalizePrice s) with
          | none => simp [parsePrice, hs, hf, hm] at h
          | some p => simp [parsePrice, hs, hf, hm] at h
  · decide

/-- C10 witness: the implication applied at the concrete input `"free"`. -/
theorem C10_isfree_zero_price_witness : (parsePrice (some "free")).price = some 0 :=
  C10_isfree_zero_price.1 (some "free") (by decide)

/-- C8: `classifyEventType` lower-cases the title, counts keyword hits of the
four fixed category lists, and picks the first category (in declaration order
music, comedy, theatre, screening) attaining the maximum count, with `other`
on an all-zero score; a title containing only the keyword `"concert"`
classifies as music and a keyword-free title as other. -/
theorem C8_classify_keywords :
    (∀ title : String, classifyEventType title = specClassify title) ∧
    classifyEventType "Concert" = EventType.music ∧
    scoreFor musicKeywords (lowerStr "Concert".data) = 1 ∧
    scoreFor comedyKeywords (lowerStr "Concert".data) = 0 ∧
    scoreFor theatreKeywords (lowerStr "Concert".data) = 0 ∧
    scoreFor screeningKeywords (lowerStr "Concert".data) = 0 ∧
    classifyEventType "zzz" = EventType.other := by
  refine ⟨?_, by decide, by decide, by decide, by decide, by decide, by decide⟩
  intro title
  simp only [classifyEventType, specClassify]
  exact bestOf_pick _ _ _ _
